import Mathlib

/-!
Shallow embedding of the MNIST IDX handler (`mlcpp/mnist_etl/helper_typetraits.hpp`,
namespace `lm`) and proofs about its header decoder, payload extractor, dataset
assembler and dataset handle.

A raw file buffer is a `List Nat` of byte values; multi-byte header fields are
decoded big-endian exactly as the source's `__builtin_bswap32` reads do.  C++
`throw` / nullable-pointer failure channels are embedded as `Except Err`, with
`Err` the error taxonomy the specification assigns to the source's distinct
failure sites.  The source performs unchecked pointer reads; at inputs where a
read would fall outside the buffer (undefined behaviour in the source) the
embedding follows the specification's prescription of an explicit bounds error
(`TruncatedHeader`, `TruncatedPayload`, `EmptyDataset`), marked `Modelled from
the spec` where it occurs.
-/

namespace MnistIdx

/-- Embeds `enum class FileType` (`IMAGE = 0x803`, `LABEL = 0x801`). -/
inductive FileType where
  | IMAGE
  | LABEL
deriving DecidableEq, Repr

/-- The error taxonomy of spec §7, naming the source's failure sites: thrown
`std::runtime_error`s, and the spec-mandated bounds errors for reads the
source leaves unchecked.  `UndefinedAccess` is a modelling marker for a
`std::vector::operator[]` access past the end inside `GetDatasetInstance`
(undefined behaviour in the source), proven unreachable for assembled
handles. -/
inductive Err where
  | IoError
  | TruncatedHeader
  | TruncatedPayload
  | FileTypeMismatch (expected actual : FileType)
  | InstanceCountMismatch (nimages nlabels : Nat)
  | EmptyDataset
  | IndexOutOfBounds (index length : Nat)
  | NotInitialized
  | UndefinedAccess
deriving DecidableEq, Repr

/-- Embeds `struct Header { FileType ftype; uint32_t n_dim; std::vector<uint32_t> dim_sizes; }`. -/
structure Header where
  ftype : FileType
  n_dim : Nat
  dim_sizes : List Nat
deriving DecidableEq, Repr

/-- Reads the 4 bytes at offset `off` as one big-endian 32-bit unsigned value,
as the source's `__builtin_bswap32(*file_cursor)` does on a big-endian field;
`none` when the 4 bytes are not all inside the buffer.  Byte values are
normalised modulo 256, matching the `char[]` buffer the source reads. -/
def readBE32 (buff : List Nat) (off : Nat) : Option Nat :=
  if off + 4 ≤ buff.length then
    some ((((buff.getD off 0 % 256) * 256 + buff.getD (off + 1) 0 % 256) * 256
            + buff.getD (off + 2) 0 % 256) * 256 + buff.getD (off + 3) 0 % 256)
  else none

/-- The dimension-size loop of `ReadHeader`: reads `count` consecutive 4-byte
big-endian values starting at offset `off`, advancing the cursor 4 bytes per
read (`dim_sizes_.push_back(__builtin_bswap32(*file_cursor++))`). -/
def readDimSizes (buff : List Nat) (off : Nat) : Nat → Option (List Nat)
  | 0 => some []
  | count + 1 =>
      match readBE32 buff off, readDimSizes buff (off + 4) count with
      | some d, some rest => some (d :: rest)
      | _, _ => none

/-- Embeds `ReadHeader`: decodes the magic word big-endian, classifies the
file type as `(magic_num == 0x803) ? FileType::IMAGE : FileType::LABEL`,
takes `n_dim_ = magic_num & 0xFF`, then reads `n_dim_` further big-endian
32-bit dimension sizes.  A read past the end of the buffer is undefined in
the source; modelled from the spec as the explicit `TruncatedHeader` error. -/
def ReadHeader (buff : List Nat) : Except Err Header :=
  match readBE32 buff 0 with
  | none => .error .TruncatedHeader
  | some magic_num =>
      match readDimSizes buff 4 (magic_num % 256) with
      | none => .error .TruncatedHeader
      | some dim_sizes_ =>
          .ok ⟨if magic_num = 0x803 then .IMAGE else .LABEL, magic_num % 256, dim_sizes_⟩

/-- Embeds the `std::accumulate(dim_sizes.begin()+1, dim_sizes.end(), 1u, *)`
record-size computation of `ReadDataHelper`: the product of all dimension
sizes except the first, in `uint32_t` arithmetic (modulo `2^32`). -/
def imageSizeOf (header : Header) : Nat :=
  (header.dim_sizes.drop 1).foldl (fun a b => a * b % 4294967296) 1

/-- Embeds `ReadDataHelper` on an already-loaded buffer (file reading is the
collaborator interface `read_all_bytes`): decodes the header, throws on a
file-type mismatch with the expected type, and returns the record size
together with the header. -/
def ReadDataHelper (buff : List Nat) (expected_filetype : FileType) :
    Except Err (Nat × Header) :=
  match ReadHeader buff with
  | .error e => .error e
  | .ok header =>
      if header.ftype ≠ expected_filetype then
        .error (.FileTypeMismatch expected_filetype header.ftype)
      else
        .ok (imageSizeOf header, header)

/-- The record-copy loop shared by the extractors: `count` consecutive records
of `recSize` bytes each, starting at byte offset `start`, each record the
verbatim byte slice of the buffer (`emplace_back(buff_raw_ptr, buff_raw_ptr +
image_size)`).  `none` when a record would extend past the end of the buffer,
which is undefined in the source; the caller maps it to the spec's
`TruncatedPayload`. -/
def sliceRecords (buff : List Nat) (start recSize : Nat) : Nat → Option (List (List Nat))
  | 0 => some []
  | count + 1 =>
      if start + recSize ≤ buff.length then
        match sliceRecords buff (start + recSize) recSize count with
        | some rest => some ((buff.drop start).take recSize :: rest)
        | none => none
      else none

/-- Embeds the `std::vector` overload of `ReadImages<T>` on a loaded buffer:
after `ReadDataHelper` with expected type `IMAGE`, skips the
`4u*(header.n_dim + 1)`-byte header region and reads `header.dim_sizes[0]`
records of `image_size` bytes each, payload bytes copied verbatim with no
byte-order conversion.  A copy past the end of the buffer is undefined in the
source; modelled from the spec as `TruncatedPayload`.  (`dim_sizes[0]` on an
empty `dim_sizes` is likewise undefined in the source and is read as 0 here;
after the `IMAGE` type check `n_dim = 3`, so `dim_sizes` is never empty on
any path reaching the loop.) -/
def ReadImages (buff : List Nat) : Except Err (List (List Nat)) :=
  match ReadDataHelper buff .IMAGE with
  | .error e => .error e
  | .ok (image_size, header) =>
      match sliceRecords buff (4 * (header.n_dim + 1)) image_size (header.dim_sizes.headD 0) with
      | none => .error .TruncatedPayload
      | some images => .ok images

/-- The scalar-read loop of `ReadLabels`: `count` single bytes starting at
offset `start`, one per instance (`labels.push_back(*buff_raw_ptr++)`).
`none` on a read past the end of the buffer. -/
def readScalars (buff : List Nat) (start : Nat) : Nat → Option (List Nat)
  | 0 => some []
  | count + 1 =>
      match buff.get? start, readScalars buff (start + 1) count with
      | some v, some rest => some (v :: rest)
      | _, _ => none

/-- Embeds `ReadLabels<LabelValueType>` on a loaded buffer: after
`ReadDataHelper` with expected type `LABEL`, skips the header region and
reads `header.dim_sizes[0]` single-byte label values verbatim.  A read past
the end of the buffer is undefined in the source; modelled from the spec as
`TruncatedPayload`. -/
def ReadLabels (buff : List Nat) : Except Err (List Nat) :=
  match ReadDataHelper buff .LABEL with
  | .error e => .error e
  | .ok (_, header) =>
      match readScalars buff (4 * (header.n_dim + 1)) (header.dim_sizes.headD 0) with
      | none => .error .TruncatedPayload
      | some labels => .ok labels

/-- Embeds `struct Data { std::vector<ImageContainer> images; std::vector<LabelValueType> labels; }`. -/
structure Data where
  images : List (List Nat)
  labels : List Nat
deriving DecidableEq, Repr

/-- Embeds `DataHandler::build_data_` on loaded buffers: reads the images,
then the labels, throws `InstanceCountMismatch` when their counts differ, and
only on full success assembles the `Data` value.  The source's
`catch`-and-return-`nullptr` channel is the `.error` branch: a failed build
produces no dataset at all. -/
def build_data_ (imgs_buff labels_buff : List Nat) : Except Err Data :=
  match ReadImages imgs_buff with
  | .error e => .error e
  | .ok images =>
      match ReadLabels labels_buff with
      | .error e => .error e
      | .ok labels =>
          if images.length ≠ labels.length then
            .error (.InstanceCountMismatch images.length labels.length)
          else
            .ok ⟨images, labels⟩

/-- Embeds `DataShape = std::array<std::array<std::size_t, 2>, 2>`, i.e.
`{{images.size(), images[0].size()}, {labels.size(), 1}}`, with the four
entries named as in the spec's Shape summary. -/
structure DataShape where
  image_count : Nat
  image_record_length : Nat
  label_count : Nat
  label_record_width : Nat
deriving DecidableEq, Repr

/-- Embeds `DataHandler::get_shape_` over the nullable dataset pointer:
throws on a null pointer (`NotInitialized`), otherwise inspects
`images.size()`, `images[0].size()`, `labels.size()`.  On an empty dataset
the source's `images[0]` indexes past the end, which is undefined; modelled
from the spec as the explicit `EmptyDataset` error. -/
def get_shape_ (datasetptr : Option Data) : Except Err DataShape :=
  match datasetptr with
  | none => .error .NotInitialized
  | some ds =>
      match ds.images with
      | [] => .error .EmptyDataset
      | img0 :: _ => .ok ⟨ds.images.length, img0.length, ds.labels.length, 1⟩

/-- Embeds the `DataHandler` state after construction: the (nullable) owned
dataset pointer and the shape cached by the constructor's initializer list. -/
structure DataHandler where
  m_datasetptr : Option Data
  m_shape : DataShape
deriving DecidableEq, Repr

/-- Embeds `DataHandler(DataSetPtr)`: stores the given pointer and caches
`get_shape_()`; when `get_shape_` throws, construction itself fails and no
handle value exists. -/
def mkDataHandlerFromPtr (datasetptr : Option Data) : Except Err DataHandler :=
  match get_shape_ datasetptr with
  | .error e => .error e
  | .ok shape => .ok ⟨datasetptr, shape⟩

/-- Embeds `DataHandler(images_path, labels_path)` on loaded buffers: the
pointer member is `build_data_`'s result (null on a failed build), and the
shape is cached by `get_shape_()` exactly as in the pointer constructor. -/
def mkDataHandler (imgs_buff labels_buff : List Nat) : Except Err DataHandler :=
  mkDataHandlerFromPtr (build_data_ imgs_buff labels_buff).toOption

/-- Embeds the `Data()` accessor: throws `NotInitialized` on a null dataset
pointer, otherwise returns the stored dataset read-only. -/
def DataHandler.Data (h : DataHandler) : Except Err MnistIdx.Data :=
  match h.m_datasetptr with
  | none => .error .NotInitialized
  | some ds => .ok ds

/-- Embeds `DataHandler::GetDatasetInstance`: rejects `index >= m_shape[0][0]`
with `IndexOutOfBounds`, throws `NotInitialized` on a null pointer, and
otherwise returns `{images[index], labels[index]}`.  The source's vector
indexing is unchecked after the shape test; an access past the end of either
vector (possible only when the cached shape disagrees with the stored data)
is undefined in the source and marked `UndefinedAccess` here. -/
def DataHandler.GetDatasetInstance (h : DataHandler) (index : Nat) :
    Except Err (List Nat × Nat) :=
  if h.m_shape.image_count ≤ index then
    .error (.IndexOutOfBounds index h.m_shape.image_count)
  else
    match h.m_datasetptr with
    | none => .error .NotInitialized
    | some ds =>
        match ds.images.get? index, ds.labels.get? index with
        | some img, some lab => .ok (img, lab)
        | _, _ => .error .UndefinedAccess

/-! ### Concrete demonstration inputs

The synthetic files of spec §8: an image file with `instance_count = 3`,
`rows = 2`, `cols = 2` (record length 4), a matching label file with 3
entries, and a label file with only 2 entries. -/

/-- Synthetic IDX image buffer: magic `0x00000803`, dimensions `[3, 2, 2]`,
payload bytes 1..12. -/
def imgbuf3 : List Nat :=
  [0, 0, 8, 3, 0, 0, 0, 3, 0, 0, 0, 2, 0, 0, 0, 2,
   1, 2, 3, 4, 5, 6, 7, 8, 9, 10, 11, 12]

/-- Synthetic IDX label buffer: magic `0x00000801`, dimension `[3]`, payload
`[7, 8, 9]`. -/
def lblbuf3 : List Nat := [0, 0, 8, 1, 0, 0, 0, 3, 7, 8, 9]

/-- Synthetic IDX label buffer with only 2 entries: magic `0x00000801`,
dimension `[2]`, payload `[4, 5]`. -/
def lblbuf2 : List Nat := [0, 0, 8, 1, 0, 0, 0, 2, 4, 5]

/-- The dataset assembled from `imgbuf3` and `lblbuf3`. -/
def demoData : Data :=
  ⟨[[1, 2, 3, 4], [5, 6, 7, 8], [9, 10, 11, 12]], [7, 8, 9]⟩

/-- The handler constructed from `imgbuf3` and `lblbuf3`. -/
def demoHandler : DataHandler := ⟨some demoData, ⟨3, 4, 3, 1⟩⟩

/-! ### Helper lemmas -/

theorem readBE32_le_of_some (buff : List Nat) (off m : Nat)
    (h : readBE32 buff off = some m) : off + 4 ≤ buff.length := by
  unfold readBE32 at h
  split at h
  · assumption
  · exact absurd h (by simp)

theorem readBE32_isSome (buff : List Nat) (off : Nat) (h : off + 4 ≤ buff.length) :
    (readBE32 buff off).isSome := by
  simp [readBE32, h]

theorem readDimSizes_spec (buff : List Nat) :
    ∀ (n off : Nat), off + 4 * n ≤ buff.length →
      ∃ l, readDimSizes buff off n = some l ∧ l.length = n ∧
        ∀ k, k < n → l.get? k = readBE32 buff (off + 4 * k) := by
  intro n
  induction n with
  | zero =>
      intro off _
      exact ⟨[], rfl, rfl, fun k hk => absurd hk (by omega)⟩
  | succ m ih =>
      intro off hle
      have h4 : off + 4 ≤ buff.length := by omega
      obtain ⟨l, hl, hlen, hget⟩ := ih (off + 4) (by omega)
      have hv : (readBE32 buff off).isSome := readBE32_isSome buff off h4
      obtain ⟨v, hv⟩ := Option.isSome_iff_exists.mp hv
      refine ⟨v :: l, ?_, ?_, ?_⟩
      · simp [readDimSizes, hv, hl]
      · simp [hlen]
      · intro k hk
        cases k with
        | zero => simpa using hv.symm
        | succ j =>
            have harith : off + 4 * (j + 1) = off + 4 + 4 * j := by ring
            rw [harith]
            simpa using hget j (by omega)

theorem readDimSizes_none_of_short (buff : List Nat) :
    ∀ (n off : Nat), 1 ≤ n → buff.length < off + 4 * n →
      readDimSizes buff off n = none := by
  intro n
  induction n with
  | zero => intro off h; omega
  | succ m ih =>
      intro off _ hshort
      by_cases hbe : off + 4 ≤ buff.length
      · have hm1 : 1 ≤ m := by omega
        have := ih (off + 4) hm1 (by omega)
        obtain ⟨v, hv⟩ := Option.isSome_iff_exists.mp (readBE32_isSome buff off hbe)
        simp [readDimSizes, hv, this]
      · have : readBE32 buff off = none := by
          cases h : readBE32 buff off with
          | none => rfl
          | some m => exact absurd (readBE32_le_of_some buff off m h) hbe
        simp [readDimSizes, this]

theorem sliceRecords_spec (buff : List Nat) (recSize : Nat) :
    ∀ (n start : Nat), start + n * recSize ≤ buff.length →
      ∃ l, sliceRecords buff start recSize n = some l ∧ l.length = n ∧
        ∀ i, i < n → l.get? i = some ((buff.drop (start + i * recSize)).take recSize) := by
  intro n
  induction n with
  | zero =>
      intro start _
      exact ⟨[], rfl, rfl, fun i hi => absurd hi (by omega)⟩
  | succ m ih =>
      intro start hle
      have hmul : (m + 1) * recSize = m * recSize + recSize := Nat.succ_mul m recSize
      have hrec : start + recSize ≤ buff.length := by omega
      obtain ⟨l, hl, hlen, hget⟩ := ih (start + recSize) (by omega)
      refine ⟨(buff.drop start).take recSize :: l, ?_, ?_, ?_⟩
      · simp [sliceRecords, hrec, hl]
      · simp [hlen]
      · intro i hi
        cases i with
        | zero => simp
        | succ j =>
            have harith : start + (j + 1) * recSize = start + recSize + j * recSize := by ring
            rw [harith]
            simpa using hget j (by omega)

theorem readScalars_spec (buff : List Nat) :
    ∀ (n start : Nat), start + n ≤ buff.length →
      ∃ l, readScalars buff start n = some l ∧ l.length = n ∧
        ∀ i, i < n → l.get? i = buff.get? (start + i) := by
  intro n
  induction n with
  | zero =>
      intro start _
      exact ⟨[], rfl, rfl, fun i hi => absurd hi (by omega)⟩
  | succ m ih =>
      intro start hle
      have hs : start < buff.length := by omega
      have hv : buff.get? start = some (buff.get ⟨start, hs⟩) := List.get?_eq_get hs
      obtain ⟨l, hl, hlen, hget⟩ := ih (start + 1) (by omega)
      refine ⟨buff.get ⟨start, hs⟩ :: l, ?_, ?_, ?_⟩
      · simp only [readScalars, hl]
        rw [hv]
      · simp [hlen]
      · intro i hi
        cases i with
        | zero => simp [hv]
        | succ j =>
            have harith : start + (j + 1) = start + 1 + j := by ring
            rw [harith]
            simpa using hget j (by omega)

theorem ReadHeader_ok_inv (buff : List Nat) (header : Header)
    (h : ReadHeader buff = .ok header) :
    ∃ magic dims, readBE32 buff 0 = some magic ∧
      readDimSizes buff 4 (magic % 256) = some dims ∧
      header = ⟨if magic = 0x803 then FileType.IMAGE else FileType.LABEL,
                magic % 256, dims⟩ := by
  unfold ReadHeader at h
  split at h
  · exact Except.noConfusion h
  next magic hm =>
    split at h
    · exact Except.noConfusion h
    next dims hd =>
      exact ⟨magic, dims, hm, hd, (Except.ok.inj h).symm⟩

theorem ReadDataHelper_ok_of (buff : List Nat) (ft : FileType) (header : Header)
    (hh : ReadHeader buff = .ok header) (hft : header.ftype = ft) :
    ReadDataHelper buff ft = .ok (imageSizeOf header, header) := by
  simp [ReadDataHelper, hh, hft]

theorem ReadDataHelper_ok_inv (buff : List Nat) (ft : FileType) (sz : Nat) (header : Header)
    (h : ReadDataHelper buff ft = .ok (sz, header)) :
    ReadHeader buff = .ok header ∧ header.ftype = ft ∧ sz = imageSizeOf header := by
  unfold ReadDataHelper at h
  split at h
  · exact Except.noConfusion h
  next header' hh =>
    split at h
    · exact Except.noConfusion h
    next hft =>
      have hp := Except.ok.inj h
      rw [Prod.mk.injEq] at hp
      obtain ⟨hsz, hhd⟩ := hp
      subst hhd
      exact ⟨hh, not_not.mp hft, hsz.symm⟩

theorem sliceRecords_length (buff : List Nat) (recSize : Nat) :
    ∀ (n start : Nat) (l : List (List Nat)),
      sliceRecords buff start recSize n = some l → l.length = n := by
  intro n
  induction n with
  | zero =>
      intro start l h
      obtain rfl := Option.some.inj h
      rfl
  | succ m ih =>
      intro start l h
      unfold sliceRecords at h
      split at h
      · split at h
        next rest hrest =>
            obtain rfl := Option.some.inj h
            simp [ih _ _ hrest]
        next => exact Option.noConfusion h
      · exact Option.noConfusion h

theorem readScalars_length (buff : List Nat) :
    ∀ (n start : Nat) (l : List Nat),
      readScalars buff start n = some l → l.length = n := by
  intro n
  induction n with
  | zero =>
      intro start l h
      obtain rfl := Option.some.inj h
      rfl
  | succ m ih =>
      intro start l h
      unfold readScalars at h
      split at h
      next v rest hv hrest =>
          obtain rfl := Option.some.inj h
          simp [ih _ _ hrest]
      next => exact Option.noConfusion h

theorem ReadImages_ok_inv (buff : List Nat) (images : List (List Nat))
    (h : ReadImages buff = .ok images) :
    ∃ header, ReadHeader buff = .ok header ∧ header.ftype = .IMAGE ∧
      sliceRecords buff (4 * (header.n_dim + 1)) (imageSizeOf header)
        (header.dim_sizes.headD 0) = some images ∧
      images.length = header.dim_sizes.headD 0 := by
  unfold ReadImages at h
  split at h
  · exact Except.noConfusion h
  next sz header hdh =>
    obtain ⟨hh, hft, hsz⟩ := ReadDataHelper_ok_inv buff .IMAGE sz header hdh
    subst hsz
    split at h
    · exact Except.noConfusion h
    next imgs hs =>
      obtain rfl := Except.ok.inj h
      exact ⟨header, hh, hft, hs, sliceRecords_length _ _ _ _ _ hs⟩

theorem ReadLabels_ok_inv (buff : List Nat) (labels : List Nat)
    (h : ReadLabels buff = .ok labels) :
    ∃ header, ReadHeader buff = .ok header ∧ header.ftype = .LABEL ∧
      readScalars buff (4 * (header.n_dim + 1)) (header.dim_sizes.headD 0) = some labels ∧
      labels.length = header.dim_sizes.headD 0 := by
  unfold ReadLabels at h
  split at h
  · exact Except.noConfusion h
  next sz header hdh =>
    obtain ⟨hh, hft, _⟩ := ReadDataHelper_ok_inv buff .LABEL sz header hdh
    split at h
    · exact Except.noConfusion h
    next labs hs =>
      obtain rfl := Except.ok.inj h
      exact ⟨header, hh, hft, hs, readScalars_length _ _ _ _ hs⟩

theorem build_data_ok_inv (imgs_buff labels_buff : List Nat) (ds : Data)
    (h : build_data_ imgs_buff labels_buff = .ok ds) :
    ReadImages imgs_buff = .ok ds.images ∧ ReadLabels labels_buff = .ok ds.labels ∧
    ds.images.length = ds.labels.length := by
  unfold build_data_ at h
  split at h
  · exact Except.noConfusion h
  next images himg =>
    split at h
    · exact Except.noConfusion h
    next labels hlab =>
      split at h
      · exact Except.noConfusion h
      next hlen =>
        obtain rfl := Except.ok.inj h
        exact ⟨himg, hlab, not_not.mp hlen⟩

theorem get_shape_ok_inv (p : Option Data) (s : DataShape) (h : get_shape_ p = .ok s) :
    ∃ ds img0 tl, p = some ds ∧ ds.images = img0 :: tl ∧
      s = ⟨ds.images.length, img0.length, ds.labels.length, 1⟩ := by
  unfold get_shape_ at h
  split at h
  · exact Except.noConfusion h
  next ds =>
    split at h
    · exact Except.noConfusion h
    next img0 tl hi =>
      exact ⟨ds, img0, tl, rfl, hi, (Except.ok.inj h).symm⟩

theorem mkDataHandlerFromPtr_ok_inv (p : Option Data) (h : DataHandler)
    (hk : mkDataHandlerFromPtr p = .ok h) :
    ∃ ds img0 tl, p = some ds ∧ h.m_datasetptr = some ds ∧ ds.images = img0 :: tl ∧
      h.m_shape = ⟨ds.images.length, img0.length, ds.labels.length, 1⟩ := by
  unfold mkDataHandlerFromPtr at hk
  split at hk
  · exact Except.noConfusion hk
  next shape hs =>
    obtain rfl := Except.ok.inj hk
    obtain ⟨ds, img0, tl, rfl, hi, rfl⟩ := get_shape_ok_inv p shape hs
    exact ⟨ds, img0, tl, rfl, rfl, hi, rfl⟩

theorem mkDataHandler_ok_inv (imgs_buff labels_buff : List Nat) (h : DataHandler)
    (hk : mkDataHandler imgs_buff labels_buff = .ok h) :
    ∃ ds img0 tl, build_data_ imgs_buff labels_buff = .ok ds ∧
      h.m_datasetptr = some ds ∧ ds.images = img0 :: tl ∧
      h.m_shape = ⟨ds.images.length, img0.length, ds.labels.length, 1⟩ := by
  unfold mkDataHandler at hk
  obtain ⟨ds, img0, tl, hp, hptr, hi, hs⟩ := mkDataHandlerFromPtr_ok_inv _ _ hk
  have hb : build_data_ imgs_buff labels_buff = .ok ds := by
    cases hbd : build_data_ imgs_buff labels_buff with
    | error e => rw [hbd] at hp; exact Option.noConfusion hp
    | ok ds' =>
        rw [hbd] at hp
        obtain rfl := Option.some.inj hp
        rfl
  exact ⟨ds, img0, tl, hb, hptr, hi, hs⟩

theorem handler_ok_no_null (p : Option Data) (h : DataHandler)
    (hk : mkDataHandlerFromPtr p = .ok h) :
    h.m_datasetptr ≠ none ∧
    (∀ ds, h.m_datasetptr = some ds → DataHandler.Data h = .ok ds) ∧
    (∀ i, h.GetDatasetInstance i ≠ .error .NotInitialized) := by
  obtain ⟨ds, img0, tl, hp, hptr, hi, hs⟩ := mkDataHandlerFromPtr_ok_inv p h hk
  refine ⟨by simp [hptr], ?_, ?_⟩
  · intro ds' hds'
    rw [hptr] at hds'
    obtain rfl := Option.some.inj hds'
    simp [DataHandler.Data, hptr]
  · intro i
    unfold DataHandler.GetDatasetInstance
    split
    · simp
    · rw [hptr]
      simp only []
      split <;> simp

theorem foldl_mul_mod (m : Nat) (l : List Nat) :
    ∀ a, l.foldl (fun x y => x * y % m) (a % m) = l.foldl (· * ·) a % m := by
  induction l with
  | nil => intro a; rfl
  | cons b t ih =>
      intro a
      simp only [List.foldl_cons]
      rw [Nat.mod_mul_mod]
      exact ih (a * b)

theorem imageSizeOf_eq_prod (header : Header)
    (h : (header.dim_sizes.drop 1).prod < 4294967296) :
    imageSizeOf header = (header.dim_sizes.drop 1).prod := by
  unfold imageSizeOf
  have h1 : (1 : Nat) = 1 % 4294967296 := rfl
  rw [h1, foldl_mul_mod, ← List.prod_eq_foldl]
  exact Nat.mod_eq_of_lt h

/-! ### Claim theorems -/

/-- C1: for every pair of image and label buffers whose decoded record counts
differ, `build_data_` fails with `InstanceCountMismatch` carrying the two
counts and produces no dataset, not even a partial one; a dataset is returned
only when every step succeeds and the counts are equal, and then it is
exactly the pair of decoded sequences. -/
theorem build_data_count_check (imgs_buff labels_buff : List Nat)
    (images : List (List Nat)) (labels : List Nat)
    (himg : ReadImages imgs_buff = .ok images)
    (hlab : ReadLabels labels_buff = .ok labels) :
    (images.length ≠ labels.length →
       build_data_ imgs_buff labels_buff =
         .error (.InstanceCountMismatch images.length labels.length) ∧
       ∀ ds, build_data_ imgs_buff labels_buff ≠ .ok ds) ∧
    (∀ ds, build_data_ imgs_buff labels_buff = .ok ds →
       ds = ⟨images, labels⟩ ∧ ds.images.length = ds.labels.length) := by
  constructor
  · intro hne
    have h1 : build_data_ imgs_buff labels_buff =
        .error (.InstanceCountMismatch images.length labels.length) := by
      simp [build_data_, himg, hlab, hne]
    exact ⟨h1, fun ds hok => by rw [h1] at hok; exact Except.noConfusion hok⟩
  · intro ds hok
    obtain ⟨h1, h2, h3⟩ := build_data_ok_inv _ _ _ hok
    rw [himg] at h1
    rw [hlab] at h2
    obtain himgs := Except.ok.inj h1
    obtain hlabs := Except.ok.inj h2
    refine ⟨?_, h3⟩
    cases ds
    simp_all

/-- Witness for C1: the synthetic 3-image file against the 2-label file. -/
theorem build_data_count_check_witness :
    build_data_ imgbuf3 lblbuf2 = .error (.InstanceCountMismatch 3 2) :=
  ((build_data_count_check imgbuf3 lblbuf2
      [[1, 2, 3, 4], [5, 6, 7, 8], [9, 10, 11, 12]] [4, 5] rfl rfl).1 (by decide)).1

/-- C3: the header decoder classifies the file kind from the big-endian magic
word: `0x803` yields `IMAGE`, `0x801` yields `LABEL`, and every other magic
value also falls to `LABEL`, the default branch of the source's conditional. -/
theorem ReadHeader_magic_classification (buff : List Nat) (magic : Nat) (header : Header)
    (hm : readBE32 buff 0 = some magic) (hr : ReadHeader buff = .ok header) :
    (magic = 0x803 → header.ftype = .IMAGE) ∧
    (magic = 0x801 → header.ftype = .LABEL) ∧
    (magic ≠ 0x803 → header.ftype = .LABEL) := by
  obtain ⟨magic', dims, hm', hd, rfl⟩ := ReadHeader_ok_inv buff header hr
  rw [hm] at hm'
  obtain rfl := Option.some.inj hm'
  refine ⟨fun h => ?_, fun h => ?_, fun h => ?_⟩
  · simp [h]
  · subst h; simp
  · simp [if_neg h]

/-- Witness for C3: an unrecognized magic word `0x900` is classified `LABEL`. -/
theorem ReadHeader_magic_classification_witness :
    ReadHeader [0, 0, 9, 0] = .ok ⟨.LABEL, 0, []⟩ ∧
    Header.ftype ⟨.LABEL, 0, []⟩ = .LABEL :=
  ⟨rfl, (ReadHeader_magic_classification [0, 0, 9, 0] 0x900 ⟨.LABEL, 0, []⟩ rfl rfl).2.2
          (by decide)⟩

/-- C4: for every buffer shorter than `4 + 4 * dimension_count` bytes, where
`dimension_count` is the low byte of the magic word (read as 0 when even the
magic word itself is missing), header decoding fails with `TruncatedHeader`
instead of reading out of bounds. -/
theorem ReadHeader_truncated (buff : List Nat)
    (hshort : buff.length < 4 + 4 * ((readBE32 buff 0).getD 0 % 256)) :
    ReadHeader buff = .error .TruncatedHeader := by
  cases hm : readBE32 buff 0 with
  | none => simp [ReadHeader, hm]
  | some magic =>
      have hlen : 0 + 4 ≤ buff.length := readBE32_le_of_some buff 0 magic hm
      rw [hm] at hshort
      simp only [Option.getD_some] at hshort
      have hn : 1 ≤ magic % 256 := by omega
      have hnone := readDimSizes_none_of_short buff (magic % 256) 4 hn (by omega)
      simp [ReadHeader, hm, hnone]

/-- Witness for C4: a 1-byte buffer is rejected. -/
theorem ReadHeader_truncated_witness :
    ([7] : List Nat).length < 4 + 4 * ((readBE32 [7] 0).getD 0 % 256) ∧
    ReadHeader [7] = .error .TruncatedHeader :=
  ⟨by decide, ReadHeader_truncated [7] (by decide)⟩

/-- C5: for every buffer whose first 4 bytes form a big-endian magic word with
low byte `N ≥ 1` and which holds the declared `4 + 4 * N` header bytes, the
decoder extracts `dimension_count = N` and reads exactly `N` further 4-byte
big-endian integers, the cursor advancing 4 bytes per read: the returned
`dim_sizes` has length `N` and entry `k` is the big-endian 32-bit value at
byte offset `4 + 4 * k`. -/
theorem ReadHeader_dims (buff : List Nat) (magic : Nat)
    (hm : readBE32 buff 0 = some magic) (_hN : 1 ≤ magic % 256)
    (hlen : 4 + 4 * (magic % 256) ≤ buff.length) :
    ∃ dims, ReadHeader buff =
        .ok ⟨if magic = 0x803 then .IMAGE else .LABEL, magic % 256, dims⟩ ∧
      dims.length = magic % 256 ∧
      ∀ k, k < magic % 256 → dims.get? k = readBE32 buff (4 + 4 * k) := by
  obtain ⟨l, hl, hll, hget⟩ := readDimSizes_spec buff (magic % 256) 4 (by omega)
  exact ⟨l, by simp [ReadHeader, hm, hl], hll, hget⟩

/-- Witness for C5: the synthetic image file's header decodes to
`dimension_count = 3` with `dim_sizes = [3, 2, 2]`. -/
theorem ReadHeader_dims_witness :
    ReadHeader imgbuf3 = .ok ⟨.IMAGE, 3, [3, 2, 2]⟩ ∧
    ([3, 2, 2] : List Nat).length = 3 := by
  obtain ⟨dims, h1, hlen, -⟩ := ReadHeader_dims imgbuf3 0x803 rfl (by decide) (by decide)
  have h2 := h1.symm.trans (rfl : ReadHeader imgbuf3 = .ok ⟨.IMAGE, 3, [3, 2, 2]⟩)
  obtain rfl := congrArg Header.dim_sizes (Except.ok.inj h2)
  exact ⟨h1, rfl⟩

/-- C7: for every buffer whose decoded header kind differs from the kind
expected for the requested role, the shared reader fails with
`FileTypeMismatch(expected, actual)` before any payload is produced, and so
does the extraction for that role and hence the build: an `IMAGE`-role
mismatch fails the build outright whatever the labels buffer holds, and a
`LABEL`-role mismatch fails the build at the labels step once the images
step has succeeded (the source reads images first). -/
theorem filetype_mismatch_fails (buff other_buff : List Nat) (expected : FileType)
    (header : Header) (hh : ReadHeader buff = .ok header)
    (hne : header.ftype ≠ expected) :
    ReadDataHelper buff expected = .error (.FileTypeMismatch expected header.ftype) ∧
    (expected = .IMAGE →
       ReadImages buff = .error (.FileTypeMismatch .IMAGE header.ftype) ∧
       build_data_ buff other_buff = .error (.FileTypeMismatch .IMAGE header.ftype)) ∧
    (expected = .LABEL →
       ReadLabels buff = .error (.FileTypeMismatch .LABEL header.ftype) ∧
       ∀ images, ReadImages other_buff = .ok images →
         build_data_ other_buff buff = .error (.FileTypeMismatch .LABEL header.ftype)) := by
  have h1 : ReadDataHelper buff expected =
      .error (.FileTypeMismatch expected header.ftype) := by
    simp [ReadDataHelper, hh, hne]
  refine ⟨h1, fun he => ?_, fun he => ?_⟩
  · subst he
    have h2 : ReadImages buff = .error (.FileTypeMismatch .IMAGE header.ftype) := by
      simp [ReadImages, h1]
    exact ⟨h2, by simp [build_data_, h2]⟩
  · subst he
    have h2 : ReadLabels buff = .error (.FileTypeMismatch .LABEL header.ftype) := by
      simp [ReadLabels, h1]
    exact ⟨h2, fun images himg => by simp [build_data_, himg, h2]⟩

/-- Witness for C7, both roles: the synthetic label file passed as the images
file, and the synthetic image file passed as the labels file. -/
theorem filetype_mismatch_fails_witness :
    build_data_ lblbuf3 lblbuf3 = .error (.FileTypeMismatch .IMAGE .LABEL) ∧
    ReadLabels imgbuf3 = .error (.FileTypeMismatch .LABEL .IMAGE) ∧
    build_data_ imgbuf3 imgbuf3 = .error (.FileTypeMismatch .LABEL .IMAGE) := by
  have ha := filetype_mismatch_fails lblbuf3 lblbuf3 .IMAGE ⟨.LABEL, 1, [3]⟩ rfl (by decide)
  have hb := filetype_mismatch_fails imgbuf3 imgbuf3 .LABEL ⟨.IMAGE, 3, [3, 2, 2]⟩ rfl
    (by decide)
  exact ⟨(ha.2.1 rfl).2, (hb.2.2 rfl).1,
         (hb.2.2 rfl).2 [[1, 2, 3, 4], [5, 6, 7, 8], [9, 10, 11, 12]] rfl⟩

/-- C2: for every handle assembled from two buffers and holding `N` instances,
`GetDatasetInstance i` returns the image/label pair stored at position `i`
when `i < N` — both sequence accesses being in bounds (`get?` is `some`) —
and fails with `IndexOutOfBounds` for every `i ≥ N`; indices are unbounded
naturals here, so this covers every representable index value. -/
theorem GetDatasetInstance_bounds (imgs_buff labels_buff : List Nat) (h : DataHandler)
    (ds : Data) (hbuild : mkDataHandler imgs_buff labels_buff = .ok h)
    (hds : h.m_datasetptr = some ds) :
    h.m_shape.image_count = ds.images.length ∧
    ds.labels.length = ds.images.length ∧
    (∀ i, i < ds.images.length →
       (ds.images.get? i).isSome ∧ (ds.labels.get? i).isSome ∧
       h.GetDatasetInstance i = .ok (ds.images.getD i [], ds.labels.getD i 0)) ∧
    (∀ i, ds.images.length ≤ i →
       h.GetDatasetInstance i = .error (.IndexOutOfBounds i ds.images.length)) := by
  obtain ⟨ds', img0, tl, hb, hptr, hi, hs⟩ := mkDataHandler_ok_inv _ _ _ hbuild
  rw [hds] at hptr
  obtain rfl := Option.some.inj hptr
  have hlab : ds.labels.length = ds.images.length := (build_data_ok_inv _ _ _ hb).2.2.symm
  refine ⟨by rw [hs], hlab, ?_, ?_⟩
  · intro i hilt
    have hlt2 : i < ds.labels.length := by omega
    have hv : ds.images.get? i = some (ds.images.get ⟨i, hilt⟩) := List.get?_eq_get hilt
    have hw : ds.labels.get? i = some (ds.labels.get ⟨i, hlt2⟩) := List.get?_eq_get hlt2
    refine ⟨by rw [hv]; rfl, by rw [hw]; rfl, ?_⟩
    have h1 : ds.images.getD i [] = ds.images.get ⟨i, hilt⟩ := by
      rw [List.getD_eq_get?, hv]; rfl
    have h2 : ds.labels.getD i 0 = ds.labels.get ⟨i, hlt2⟩ := by
      rw [List.getD_eq_get?, hw]; rfl
    unfold DataHandler.GetDatasetInstance
    rw [hs, hds, if_neg (by simp; omega)]
    simp only [hv, hw, h1, h2]
  · intro i hile
    unfold DataHandler.GetDatasetInstance
    rw [hs]
    rw [if_pos (by simp; omega)]

/-- Witness for C2: on the assembled demonstration handle, position 1 is
returned for index 1, and indices `N` and `N + 1000` are rejected. -/
theorem GetDatasetInstance_bounds_witness :
    DataHandler.GetDatasetInstance demoHandler 1 = .ok ([5, 6, 7, 8], 8) ∧
    DataHandler.GetDatasetInstance demoHandler 3 = .error (.IndexOutOfBounds 3 3) ∧
    DataHandler.GetDatasetInstance demoHandler 1003 = .error (.IndexOutOfBounds 1003 3) := by
  have h := GetDatasetInstance_bounds imgbuf3 lblbuf3 demoHandler demoData rfl rfl
  exact ⟨(h.2.2.1 1 (by decide)).2.2, h.2.2.2 3 (by decide), h.2.2.2 1003 (by decide)⟩

/-- C6: for every buffer and decoded `IMAGE` header meeting the extractor
preconditions (record size the product of `dim_sizes[1..]`, product within
`uint32_t` range, buffer long enough for `dim_sizes[0]` records after the
`4 + 4 * dimension_count`-byte header region), extraction succeeds, starts
immediately after the header region, reads `dim_sizes[0]` consecutive records
of `recSize` bytes each in file order — record `i` being the `i`-th record of
the file — and copies payload bytes verbatim, with no byte-order conversion:
byte `k` of record `i` is the buffer byte at offset
`4 + 4 * dimension_count + i * recSize + k`. -/
theorem ReadImages_extraction (buff : List Nat) (header : Header)
    (hh : ReadHeader buff = .ok header) (hft : header.ftype = .IMAGE)
    (cnt recSize : Nat)
    (hcnt : header.dim_sizes.headD 0 = cnt)
    (hrs : (header.dim_sizes.drop 1).prod = recSize)
    (hrs32 : recSize < 4294967296)
    (hlen : 4 + 4 * header.n_dim + cnt * recSize ≤ buff.length) :
    ∃ images, ReadImages buff = .ok images ∧ images.length = cnt ∧
      ∀ i, i < cnt →
        images.get? i = some ((buff.drop (4 + 4 * header.n_dim + i * recSize)).take recSize) ∧
        ∀ k, k < recSize →
          ((buff.drop (4 + 4 * header.n_dim + i * recSize)).take recSize).get? k =
            buff.get? (4 + 4 * header.n_dim + i * recSize + k) := by
  have hsz : imageSizeOf header = recSize := by
    rw [imageSizeOf_eq_prod header (by rw [hrs]; exact hrs32)]
    exact hrs
  have hstart : 4 * (header.n_dim + 1) = 4 + 4 * header.n_dim := by ring
  obtain ⟨l, hl, hll, hget⟩ :=
    sliceRecords_spec buff recSize cnt (4 + 4 * header.n_dim) hlen
  have hread : ReadImages buff = .ok l := by
    have hdh := ReadDataHelper_ok_of buff .IMAGE header hh hft
    simp only [ReadImages, hdh, hsz, hcnt, hstart, hl]
  refine ⟨l, hread, hll, fun i hi => ⟨hget i hi, fun k hk => ?_⟩⟩
  rw [List.get?_take hk, List.get?_drop]

/-- Witness for C6: the synthetic image file yields 3 records of 4 verbatim
payload bytes each, in file order. -/
theorem ReadImages_extraction_witness :
    ReadImages imgbuf3 = .ok [[1, 2, 3, 4], [5, 6, 7, 8], [9, 10, 11, 12]] ∧
    ([[1, 2, 3, 4], [5, 6, 7, 8], [9, 10, 11, 12]] : List (List Nat)).get? 2 =
      some ((imgbuf3.drop (4 + 4 * 3 + 2 * 4)).take 4) := by
  obtain ⟨images, h1, -, hget⟩ :=
    ReadImages_extraction imgbuf3 ⟨.IMAGE, 3, [3, 2, 2]⟩ rfl rfl 3 4 rfl rfl
      (by decide) (by decide)
  have h2 := h1.symm.trans
    (rfl : ReadImages imgbuf3 = .ok [[1, 2, 3, 4], [5, 6, 7, 8], [9, 10, 11, 12]])
  obtain rfl := Except.ok.inj h2
  exact ⟨h1, (hget 2 (by decide)).1⟩

/-- C8: for every successfully built handle, the shape cached at construction
is `{image_count = images.length, image_record_length = images[0].length,
label_count = labels.length, label_record_width = 1}` (the image sequence
being non-empty, its head is `images[0]`), and `get_shape_` recomputed on the
stored dataset returns exactly this cached value without failure. -/
theorem shape_cached (imgs_buff labels_buff : List Nat) (h : DataHandler) (ds : Data)
    (hbuild : mkDataHandler imgs_buff labels_buff = .ok h)
    (hds : h.m_datasetptr = some ds) :
    ds.images ≠ [] ∧
    h.m_shape = ⟨ds.images.length, (ds.images.headD []).length, ds.labels.length, 1⟩ ∧
    get_shape_ h.m_datasetptr = .ok h.m_shape := by
  obtain ⟨ds', img0, tl, hb, hptr, hi, hs⟩ := mkDataHandler_ok_inv _ _ _ hbuild
  rw [hds] at hptr
  obtain rfl := Option.some.inj hptr
  refine ⟨by simp [hi], ?_, ?_⟩
  · rw [hs, hi]
    simp
  · rw [hds, hs]
    simp [get_shape_, hi]

/-- Witness for C8: the handle built from `instance_count = 3`,
`record_length = 4` files carries the cached shape `{3, 4, 3, 1}`. -/
theorem shape_cached_witness :
    demoHandler.m_shape = ⟨3, 4, 3, 1⟩ ∧
    get_shape_ demoHandler.m_datasetptr = .ok demoHandler.m_shape := by
  have h := shape_cached imgbuf3 lblbuf3 demoHandler demoData rfl rfl
  exact ⟨h.2.1, h.2.2⟩

/-- C9: on an empty dataset (`images.length = 0`) the shape computation fails
explicitly with `EmptyDataset` instead of indexing past the end of the image
sequence; on any non-empty dataset it is defined and inspects
`images.length`, `images[0].length` and `labels.length`. -/
theorem get_shape_empty_dataset (ds : Data) :
    (ds.images = [] → get_shape_ (some ds) = .error .EmptyDataset) ∧
    (∀ img0 tl, ds.images = img0 :: tl →
       get_shape_ (some ds) = .ok ⟨ds.images.length, img0.length, ds.labels.length, 1⟩) := by
  constructor
  · intro h
    simp [get_shape_, h]
  · intro img0 tl h
    simp [get_shape_, h]

/-- Witness for C9: a dataset with no images is rejected with `EmptyDataset`. -/
theorem get_shape_empty_dataset_witness :
    get_shape_ (some ⟨[], [5]⟩) = .error .EmptyDataset :=
  (get_shape_empty_dataset ⟨[], [5]⟩).1 rfl

/-- C10: every fully constructed handle — from a pre-built dataset pointer or
from two buffers — owns a non-null dataset pointer, so the null-pointer
(`NotInitialized`) branches of `Data()` and `GetDatasetInstance` are
unreachable on it; and when the internal build fails (null pointer), the
shape computation invoked by the constructor's initializer throws, so
construction itself fails and no handle exists in the failed state. -/
theorem handler_never_null (p : Option Data) (imgs_buff labels_buff : List Nat) :
    (∀ h, mkDataHandlerFromPtr p = .ok h →
       h.m_datasetptr ≠ none ∧
       (∀ ds, h.m_datasetptr = some ds → DataHandler.Data h = .ok ds) ∧
       (∀ i, h.GetDatasetInstance i ≠ .error .NotInitialized)) ∧
    (∀ h, mkDataHandler imgs_buff labels_buff = .ok h →
       h.m_datasetptr ≠ none ∧
       (∀ ds, h.m_datasetptr = some ds → DataHandler.Data h = .ok ds) ∧
       (∀ i, h.GetDatasetInstance i ≠ .error .NotInitialized)) ∧
    (∀ e, build_data_ imgs_buff labels_buff = .error e →
       mkDataHandler imgs_buff labels_buff = .error .NotInitialized) := by
  refine ⟨fun h hk => handler_ok_no_null p h hk,
          fun h hk => handler_ok_no_null _ h hk, fun e hbe => ?_⟩
  simp [mkDataHandler, hbe, Except.toOption, mkDataHandlerFromPtr, get_shape_]

/-- Witness for C10: the demonstration handle is never in the null state, and
a failed build (count mismatch) makes construction fail. -/
theorem handler_never_null_witness :
    demoHandler.m_datasetptr ≠ none ∧
    DataHandler.Data demoHandler = .ok demoData ∧
    DataHandler.GetDatasetInstance demoHandler 5 ≠ .error .NotInitialized ∧
    mkDataHandler imgbuf3 lblbuf2 = .error .NotInitialized := by
  have ha := (handler_never_null (some demoData) imgbuf3 lblbuf3).2.1 demoHandler rfl
  have hb := (handler_never_null (some demoData) imgbuf3 lblbuf2).2.2
    (.InstanceCountMismatch 3 2) rfl
  exact ⟨ha.1, ha.2.1 demoData rfl, ha.2.2 5, hb⟩

end MnistIdx
